import Mathlib

/-!
Verification of the `http-body-io` bridge (a bounded handoff channel between a
byte-chunk producer and an `http_body::Body` consumer).

The Rust sources (`src/lib.rs`, `src/body_reader.rs`, `src/body_writer.rs`) are
shallowly embedded here.  The bridge is built on a `tokio::sync::mpsc` bounded
channel of `Bytes` chunks; both adapter ends are thin wrappers over that
channel, so the model consists of:

* `ChannelState` — the shared mutable state of the bounded channel: its
  capacity, the FIFO queue of pending chunks, and whether either handle has
  been dropped;
* the channel primitives the source calls (`trySend`, `pollSend`, `pollRecv`),
  translated from tokio's documented semantics (closed takes precedence over
  full; `poll_recv` drains remaining chunks after the sender is dropped and
  only then reports end-of-stream);
* the adapter entry points, translated line-by-line from the source:
  `writeLoop` (the blocking `std::io::Write::write` retry loop, with explicit
  fuel standing for the number of `try_send` attempts), `pollWrite`
  (`tokio::io::AsyncWrite::poll_write`), `pollFrame`
  (`http_body::Body::poll_frame`) and `pollRead`
  (`tokio::io::AsyncRead::poll_read`);
* a small transition system (`Step`, `Reachable`) interleaving one producer
  and one consumer, used for the order-preservation and backpressure claims.

Bytes are modelled as `List Nat` (the payload is opaque to the bridge);
`Bytes::copy_from_slice` is the identity on that model.  A Rust panic
(tokio's zero-capacity assertion, `ReadBuf::put_slice`'s capacity assertion)
is modelled as `Option.none`.
-/

deriving instance DecidableEq for Except

namespace HttpBodyChannel

/-- A chunk of bytes moved through the channel (`bytes::Bytes`); the payload is
opaque to the bridge, so bytes are modelled as natural numbers. -/
abbrev Chunk := List Nat

/-- The shared state of the `tokio::sync::mpsc::channel` connecting the two
adapters: its capacity, the FIFO queue of un-consumed chunks, and whether the
sender (write adapter) or receiver (read adapter) has been dropped. -/
structure ChannelState where
  capacity : Nat
  queue : List Chunk
  senderDropped : Bool
  receiverDropped : Bool
deriving DecidableEq, Repr

/-- Rust `tokio::sync::mpsc::error::TrySendError`: the chunk is handed back on
failure. -/
inductive TrySendError where
  | full : Chunk → TrySendError
  | closed : Chunk → TrySendError
deriving DecidableEq, Repr

/-- The `core::task::Poll` type. -/
inductive Poll (α : Type) where
  | ready : α → Poll α
  | pending : Poll α
deriving DecidableEq, Repr

/-- The single error kind surfaced to producers (`std::io::ErrorKind`
restricted to what the source constructs). -/
inductive IoErrorKind where
  | brokenPipe : IoErrorKind
deriving DecidableEq, Repr

/-- The read side's error type `BodyIoError` (`src/lib.rs`); it carries no
data and is never actually produced by `poll_frame`. -/
inductive BodyIoError where
  | mk : BodyIoError
deriving DecidableEq, Repr

/-- Rust `http_body::Frame` restricted to data frames, which are the only frames
the source constructs (`http_body::Frame::data(bytes)`). -/
structure Frame where
  data : Chunk
deriving DecidableEq, Repr

/-- Rust `Sender::try_send`: fails with `Closed` if the receiver has been dropped,
with `Full` if the queue is at capacity, and otherwise appends the chunk to
the FIFO queue. -/
def trySend (st : ChannelState) (b : Chunk) : Except TrySendError Unit × ChannelState :=
  if st.receiverDropped = true then (Except.error (TrySendError.closed b), st)
  else if st.capacity ≤ st.queue.length then (Except.error (TrySendError.full b), st)
  else (Except.ok (), { st with queue := st.queue ++ [b] })

/-- One poll of the `Sender::send` future: ready with an error if the receiver
has been dropped, pending while the queue is at capacity, and otherwise ready
after appending the chunk. -/
def pollSend (st : ChannelState) (b : Chunk) : Poll (Except Chunk Unit) × ChannelState :=
  if st.receiverDropped = true then (Poll.ready (Except.error b), st)
  else if st.capacity ≤ st.queue.length then (Poll.pending, st)
  else (Poll.ready (Except.ok ()), { st with queue := st.queue ++ [b] })

/-- Rust `Receiver::poll_recv` (also the first poll of a fresh `Receiver::recv`
future): ready with the head chunk if the queue is non-empty, ready with
`none` (end-of-stream) if the queue is empty and the sender has been dropped,
pending otherwise. -/
def pollRecv (st : ChannelState) : Poll (Option Chunk) × ChannelState :=
  match st.queue with
  | b :: rest => (Poll.ready (some b), { st with queue := rest })
  | [] =>
    if st.senderDropped = true then (Poll.ready none, st)
    else (Poll.pending, st)

/-- Dropping the `BodyWriter` drops the sender handle. -/
def dropWriter (st : ChannelState) : ChannelState := { st with senderDropped := true }

/-- Dropping the `BodyReader` drops the receiver handle. -/
def dropReader (st : ChannelState) : ChannelState := { st with receiverDropped := true }

/-- Rust `tokio::sync::mpsc::channel(buffer)`: panics (modelled as `none`) when
`buffer = 0`, otherwise constructs an empty channel of that capacity with both
handles live. -/
def mpscChannel (buffer : Nat) : Option ChannelState :=
  if buffer = 0 then none
  else some { capacity := buffer, queue := [], senderDropped := false, receiverDropped := false }

/-- The factory `channel()` from `src/lib.rs` lines 12-15: the factory takes no capacity
argument and always calls `tokio::sync::mpsc::channel(1)`; the returned
`(BodyReader, BodyWriter)` pair shares the constructed state, which is what we
model. -/
def channel : Option ChannelState := mpscChannel 1

/-- The constructor as the spec words it, for comparison with `channel`: a
factory parameterized by a capacity `C`, where `C = 0` is a fatal
configuration error at construction time. -/
def channelAsSpecified (C : Nat) : Option ChannelState :=
  if C = 0 then none
  else some { capacity := C, queue := [], senderDropped := false, receiverDropped := false }

/-- Rust `<BodyWriter as std::io::Write>::write` (`src/lib.rs` lines 77-94 and
`src/body_writer.rs` lines 28-48): copy the input, then loop on `try_send`;
on `Ok` return the full input length, on `Full` take the chunk back, yield the
thread and retry, on `Closed` return a broken-pipe error.  The loop has no
bound in the source; `fuel` counts `try_send` attempts and a result of `none`
means the loop is still spinning after that many attempts. -/
def writeLoop : Nat → ChannelState → Chunk → Option (Except IoErrorKind Nat) × ChannelState
  | 0, st, _ => (none, st)
  | Nat.succ fuel, st, bytes =>
    match trySend st bytes with
    | (Except.ok (), st') => (some (Except.ok bytes.length), st')
    | (Except.error (TrySendError.full bytesRet), st') => writeLoop fuel st' bytesRet
    | (Except.error (TrySendError.closed _), st') =>
      (some (Except.error IoErrorKind.brokenPipe), st')

/-- Rust `<BodyWriter as tokio::io::AsyncWrite>::poll_write` (`src/lib.rs` lines
98-114 and `src/body_writer.rs` lines 51-68): poll `sender.send`; pending
stays pending, success returns the full input length, failure becomes a
broken-pipe error. -/
def pollWrite (st : ChannelState) (buf : Chunk) : Poll (Except IoErrorKind Nat) × ChannelState :=
  match pollSend st buf with
  | (Poll.pending, st') => (Poll.pending, st')
  | (Poll.ready (Except.ok ()), st') => (Poll.ready (Except.ok buf.length), st')
  | (Poll.ready (Except.error _), st') =>
    (Poll.ready (Except.error IoErrorKind.brokenPipe), st')

/-- Rust `<BodyReader as http_body::Body>::poll_frame` (`src/lib.rs` lines 38-51
and `src/body_reader.rs` lines 28-48): poll the receiver; a received chunk is
wrapped in exactly one data frame, `None` is surfaced as end-of-stream, and
pending stays pending. -/
def pollFrame (st : ChannelState) : Poll (Option (Except BodyIoError Frame)) × ChannelState :=
  match pollRecv st with
  | (Poll.ready (some bytes), st') => (Poll.ready (some (Except.ok { data := bytes })), st')
  | (Poll.ready none, st') => (Poll.ready none, st')
  | (Poll.pending, st') => (Poll.pending, st')

/-- Rust `tokio::io::ReadBuf`: a caller-supplied buffer with a fixed capacity and
an initialized, filled portion. -/
structure ReadBuf where
  capacity : Nat
  filled : List Nat
deriving DecidableEq, Repr

/-- Rust `ReadBuf::remaining`. -/
def ReadBuf.remaining (b : ReadBuf) : Nat := b.capacity - b.filled.length

/-- Rust `ReadBuf::put_slice`: appends the slice to the filled portion; its
internal capacity assertion panics (modelled as `none`) when the slice is
longer than the remaining capacity. -/
def ReadBuf.putSlice (b : ReadBuf) (s : List Nat) : Option ReadBuf :=
  if s.length ≤ b.remaining then some { b with filled := b.filled ++ s } else none

/-- Rust `<BodyReader as tokio::io::AsyncRead>::poll_read` (`src/lib.rs` lines
54-70 and `src/body_reader.rs` lines 51-69): poll a fresh `receiver.recv()`
future; on a chunk, `put_slice` the whole chunk into the caller's buffer
(`none` models the `put_slice` panic); on `None` (end-of-stream) succeed
without touching the buffer; pending stays pending. -/
def pollRead (st : ChannelState) (buf : ReadBuf) :
    Option (Poll (Except IoErrorKind Unit) × ReadBuf × ChannelState) :=
  match pollRecv st with
  | (Poll.pending, st') => some (Poll.pending, buf, st')
  | (Poll.ready (some bytes), st') =>
    match buf.putSlice bytes with
    | some buf' => some (Poll.ready (Except.ok ()), buf', st')
    | none => none
  | (Poll.ready none, st') => some (Poll.ready (Except.ok ()), buf, st')

/-- A sequence of consecutive write attempts on the same writer, each through
either entry point: `true` selects the suspending `poll_write`, `false` the
blocking `write` (with `fuel` bounding its retry loop).  Each attempt's result
is recorded (`none` meaning the attempt has not completed). -/
def writeAttempts (fuel : Nat) (st : ChannelState) :
    List (Bool × Chunk) → List (Option (Except IoErrorKind Nat)) × ChannelState
  | [] => ([], st)
  | (useAsync, b) :: rest =>
    let step :=
      if useAsync then
        match pollWrite st b with
        | (Poll.ready r, st') => (some r, st')
        | (Poll.pending, st') => (none, st')
      else writeLoop fuel st b
    let next := writeAttempts fuel step.2 rest
    (step.1 :: next.1, next.2)

lemma trySend_closed {st : ChannelState} (b : Chunk) (h : st.receiverDropped = true) :
    trySend st b = (Except.error (TrySendError.closed b), st) := by
  simp [trySend, h]

lemma trySend_full {st : ChannelState} (b : Chunk) (h1 : st.receiverDropped = false)
    (h2 : st.capacity ≤ st.queue.length) :
    trySend st b = (Except.error (TrySendError.full b), st) := by
  simp [trySend, h1, h2]

lemma trySend_ok {st : ChannelState} (b : Chunk) (h1 : st.receiverDropped = false)
    (h2 : st.queue.length < st.capacity) :
    trySend st b = (Except.ok (), { st with queue := st.queue ++ [b] }) := by
  simp [trySend, h1, Nat.not_le.mpr h2]

lemma pollRecv_cons {st : ChannelState} {c : Chunk} {rest : List Chunk}
    (h : st.queue = c :: rest) :
    pollRecv st = (Poll.ready (some c), { st with queue := rest }) := by
  simp [pollRecv, h]

lemma pollRecv_eos {st : ChannelState} (hs : st.senderDropped = true)
    (hq : st.queue = []) : pollRecv st = (Poll.ready none, st) := by
  simp [pollRecv, hq, hs]

lemma pollRecv_pending {st : ChannelState} (hs : st.senderDropped = false)
    (hq : st.queue = []) : pollRecv st = (Poll.pending, st) := by
  simp [pollRecv, hq, hs]

lemma pollFrame_cons {st : ChannelState} {c : Chunk} {rest : List Chunk}
    (h : st.queue = c :: rest) :
    pollFrame st = (Poll.ready (some (Except.ok { data := c })), { st with queue := rest }) := by
  simp [pollFrame, pollRecv_cons h]

lemma pollFrame_eos {st : ChannelState} (hs : st.senderDropped = true)
    (hq : st.queue = []) : pollFrame st = (Poll.ready none, st) := by
  simp [pollFrame, pollRecv_eos hs hq]

lemma pollFrame_pending {st : ChannelState} (hs : st.senderDropped = false)
    (hq : st.queue = []) : pollFrame st = (Poll.pending, st) := by
  simp [pollFrame, pollRecv_pending hs hq]

lemma writeLoop_closed {st : ChannelState} (b : Chunk) (fuel : Nat) (hf : 0 < fuel)
    (hd : st.receiverDropped = true) :
    writeLoop fuel st b = (some (Except.error IoErrorKind.brokenPipe), st) := by
  cases fuel with
  | zero => omega
  | succ k => simp [writeLoop, trySend_closed b hd]

lemma pollWrite_closed {st : ChannelState} (b : Chunk) (hd : st.receiverDropped = true) :
    pollWrite st b = (Poll.ready (Except.error IoErrorKind.brokenPipe), st) := by
  simp [pollWrite, pollSend, hd]

lemma writeLoop_full {st : ChannelState} (b : Chunk) (fuel : Nat)
    (h1 : st.receiverDropped = false) (h2 : st.capacity ≤ st.queue.length) :
    writeLoop fuel st b = (none, st) := by
  induction fuel with
  | zero => rfl
  | succ k ih => simp [writeLoop, trySend_full b h1 h2, ih]

lemma pollWrite_full {st : ChannelState} (b : Chunk)
    (h1 : st.receiverDropped = false) (h2 : st.capacity ≤ st.queue.length) :
    pollWrite st b = (Poll.pending, st) := by
  simp [pollWrite, pollSend, h1, h2]

lemma writeLoop_ok {st : ChannelState} (b : Chunk) (fuel : Nat) (hf : 0 < fuel)
    (h1 : st.receiverDropped = false) (h2 : st.queue.length < st.capacity) :
    writeLoop fuel st b = (some (Except.ok b.length), { st with queue := st.queue ++ [b] }) := by
  cases fuel with
  | zero => omega
  | succ k => simp [writeLoop, trySend_ok b h1 h2]

lemma writeLoop_ok_length : ∀ (fuel : Nat) (st : ChannelState) (buf : Chunk) (n : Nat),
    (writeLoop fuel st buf).1 = some (Except.ok n) → n = buf.length := by
  intro fuel
  induction fuel with
  | zero =>
    intro st buf n h
    simp [writeLoop] at h
  | succ k ih =>
    intro st buf n h
    by_cases hd : st.receiverDropped = true
    · rw [writeLoop_closed buf (k + 1) (Nat.succ_pos k) hd] at h
      simp at h
    · have hd' : st.receiverDropped = false := by simpa using hd
      by_cases hfull : st.capacity ≤ st.queue.length
      · rw [writeLoop_full buf (k + 1) hd' hfull] at h
        simp at h
      · rw [writeLoop_ok buf (k + 1) (Nat.succ_pos k) hd' (Nat.not_le.mp hfull)] at h
        simp at h
        omega

lemma pollSend_ok {st : ChannelState} (b : Chunk) (h1 : st.receiverDropped = false)
    (h2 : st.queue.length < st.capacity) :
    pollSend st b = (Poll.ready (Except.ok ()), { st with queue := st.queue ++ [b] }) := by
  simp [pollSend, h1, Nat.not_le.mpr h2]

lemma pollWrite_ok_length {st : ChannelState} {buf : Chunk} {n : Nat}
    (h : (pollWrite st buf).1 = Poll.ready (Except.ok n)) : n = buf.length := by
  by_cases hd : st.receiverDropped = true
  · rw [pollWrite_closed buf hd] at h
    simp at h
  · have hd' : st.receiverDropped = false := by simpa using hd
    by_cases hfull : st.capacity ≤ st.queue.length
    · rw [pollWrite_full buf hd' hfull] at h
      simp at h
    · rw [pollWrite] at h
      rw [pollSend_ok buf hd' (Nat.not_le.mp hfull)] at h
      simp at h
      omega

lemma trySend_ok_inv {st st' : ChannelState} {b : Chunk}
    (h : trySend st b = (Except.ok (), st')) :
    st.receiverDropped = false ∧ st.queue.length < st.capacity ∧
      st' = { st with queue := st.queue ++ [b] } := by
  by_cases h1 : st.receiverDropped = true
  · rw [trySend_closed b h1] at h
    simp at h
  · have h1' : st.receiverDropped = false := by simpa using h1
    by_cases h2 : st.capacity ≤ st.queue.length
    · rw [trySend_full b h1' h2] at h
      simp at h
    · have h2' := Nat.not_le.mp h2
      rw [trySend_ok b h1' h2'] at h
      simp at h
      exact ⟨h1', h2', h.symm⟩

lemma pollWrite_ok_inv {st st' : ChannelState} {b : Chunk} {n : Nat}
    (h : pollWrite st b = (Poll.ready (Except.ok n), st')) :
    st.receiverDropped = false ∧ st.queue.length < st.capacity ∧ n = b.length ∧
      st' = { st with queue := st.queue ++ [b] } := by
  by_cases h1 : st.receiverDropped = true
  · rw [pollWrite_closed b h1] at h
    simp at h
  · have h1' : st.receiverDropped = false := by simpa using h1
    by_cases h2 : st.capacity ≤ st.queue.length
    · rw [pollWrite_full b h1' h2] at h
      simp at h
    · have h2' := Nat.not_le.mp h2
      rw [pollWrite, pollSend_ok b h1' h2'] at h
      simp at h
      exact ⟨h1', h2', h.1.symm, h.2.symm⟩

lemma pollFrame_ok_inv {st st' : ChannelState} {f : Frame}
    (h : pollFrame st = (Poll.ready (some (Except.ok f)), st')) :
    st.queue = f.data :: st'.queue ∧ st'.capacity = st.capacity ∧
      st'.senderDropped = st.senderDropped ∧ st'.receiverDropped = st.receiverDropped := by
  cases hq : st.queue with
  | nil =>
    by_cases hs : st.senderDropped = true
    · rw [pollFrame_eos hs hq] at h
      simp at h
    · rw [pollFrame_pending (by simpa using hs) hq] at h
      simp at h
  | cons c rest =>
    rw [pollFrame_cons hq] at h
    simp at h
    obtain ⟨hf, hst⟩ := h
    subst hst
    simp [hq, ← hf]

lemma pollFrame_never_error (st₁ : ChannelState) (e : BodyIoError) (st₂ : ChannelState) :
    pollFrame st₁ ≠ (Poll.ready (some (Except.error e)), st₂) := by
  intro h
  cases hq : st₁.queue with
  | nil =>
    by_cases hs : st₁.senderDropped = true
    · rw [pollFrame_eos hs hq] at h
      simp at h
    · rw [pollFrame_pending (by simpa using hs) hq] at h
      simp at h
  | cons c rest =>
    rw [pollFrame_cons hq] at h
    simp at h

lemma pollFrame_none_inv {st₁ st₂ : ChannelState}
    (h : pollFrame st₁ = (Poll.ready none, st₂)) :
    st₁.queue = [] ∧ st₁.senderDropped = true ∧ st₂ = st₁ := by
  cases hq : st₁.queue with
  | nil =>
    by_cases hs : st₁.senderDropped = true
    · rw [pollFrame_eos hs hq] at h
      simp at h
      exact ⟨rfl, hs, h.symm⟩
    · rw [pollFrame_pending (by simpa using hs) hq] at h
      simp at h
  | cons c rest =>
    rw [pollFrame_cons hq] at h
    simp at h

/-- The joint state of one producer driving the write adapter and one
consumer driving the read adapter's frame interface: the shared channel, the
chunks the producer still intends to write (in order), and the payloads of
the data frames the consumer has observed so far (in order). -/
structure SysState where
  chan : ChannelState
  pending : List Chunk
  received : List Chunk
deriving DecidableEq, Repr

/-- One observable step of the producer/consumer system, in any interleaving:
a blocking write completes (`try_send` accepts the chunk), a suspending write
completes (`poll_write` returns ready-ok), the consumer's `poll_frame` yields
a data frame, the producer drops the writer after its last write, or the
consumer drops the reader.  Poll attempts that leave the state unchanged
(full channel, empty channel) are stutter steps and need no transition. -/
inductive Step : SysState → SysState → Prop where
  | writeSync (s : SysState) (c : Chunk) (rest : List Chunk) (st' : ChannelState) :
      s.pending = c :: rest → s.chan.senderDropped = false →
      trySend s.chan c = (Except.ok (), st') →
      Step s ⟨st', rest, s.received⟩
  | writeAsync (s : SysState) (c : Chunk) (rest : List Chunk) (n : Nat) (st' : ChannelState) :
      s.pending = c :: rest → s.chan.senderDropped = false →
      pollWrite s.chan c = (Poll.ready (Except.ok n), st') →
      Step s ⟨st', rest, s.received⟩
  | readFrame (s : SysState) (f : Frame) (st' : ChannelState) :
      s.chan.receiverDropped = false →
      pollFrame s.chan = (Poll.ready (some (Except.ok f)), st') →
      Step s ⟨st', s.pending, s.received ++ [f.data]⟩
  | dropWriterStep (s : SysState) :
      s.pending = [] → s.chan.senderDropped = false →
      Step s ⟨dropWriter s.chan, s.pending, s.received⟩
  | dropReaderStep (s : SysState) :
      s.chan.receiverDropped = false →
      Step s ⟨dropReader s.chan, s.pending, s.received⟩

/-- The system at the moment the bridge is constructed: an empty channel of
capacity `C`, the producer about to perform the given writes, the consumer
having observed nothing. -/
def init (C : Nat) (writes : List Chunk) : SysState :=
  ⟨⟨C, [], false, false⟩, writes, []⟩

/-- States the producer/consumer system can reach from construction. -/
def Reachable (C : Nat) (writes : List Chunk) (s : SysState) : Prop :=
  Relation.ReflTransGen Step (init C writes) s

lemma reachable_invariant {C : Nat} {writes : List Chunk} {s : SysState}
    (h : Reachable C writes s) :
    s.chan.capacity = C ∧ s.chan.queue.length ≤ C ∧
      s.received ++ s.chan.queue ++ s.pending = writes := by
  induction h with
  | refl => simp [init]
  | tail hr hstep ih =>
    obtain ⟨ihc, ihl, ihw⟩ := ih
    cases hstep with
    | writeSync c rest st' hp hsd htr =>
      obtain ⟨_, hlt, hst⟩ := trySend_ok_inv htr
      subst hst
      refine ⟨ihc, by simp; omega, ?_⟩
      rw [hp] at ihw
      simpa [List.append_assoc] using ihw
    | writeAsync c rest n st' hp hsd hpw =>
      obtain ⟨_, hlt, _, hst⟩ := pollWrite_ok_inv hpw
      subst hst
      refine ⟨ihc, by simp; omega, ?_⟩
      rw [hp] at ihw
      simpa [List.append_assoc] using ihw
    | readFrame f st' hrd hpf =>
      obtain ⟨hqeq, hc, _, _⟩ := pollFrame_ok_inv hpf
      have hlen : st'.queue.length + 1 ≤ C := by
        have hcong := congrArg List.length hqeq
        simp at hcong
        omega
      refine ⟨by rw [hc, ihc], by simp; omega, ?_⟩
      rw [hqeq] at ihw
      simpa [List.append_assoc] using ihw
    | dropWriterStep hp hsd =>
      exact ⟨ihc, ihl, ihw⟩
    | dropReaderStep hrd =>
      exact ⟨ihc, ihl, ihw⟩

/-- Claim C2: whatever the interleaving between producer and consumer, once
the producer has completed all its writes `w1, …, wn` (through either entry
point, in any mix), dropped the writer, and the consumer has drained the
channel, the consumer's `poll_frame` has yielded exactly `n` data frames
whose payloads are `w1, …, wn` byte-for-byte, in order — no reordering, no
splitting, no coalescing. -/
theorem order_preservation (C : Nat) (writes : List Chunk) (s : SysState)
    (h : Reachable C writes s) (hp : s.pending = [])
    (hd : s.chan.queue = []) :
    s.received = writes ∧ s.received.length = writes.length := by
  have hw := (reachable_invariant h).2.2
  rw [hp, hd] at hw
  simp at hw
  exact ⟨hw, by rw [hw]⟩

/-- Claim C2 witness: with capacity 1 and writes `[[1], [2]]` performed one
via the blocking entry point and one via the suspending entry point,
interleaved with the consumer, the consumer observes exactly `[[1], [2]]`. -/
theorem order_preservation_witness :
    SysState.received ⟨⟨1, [], true, false⟩, [], [[1], [2]]⟩ = [[1], [2]] := by
  have step1 : Step (init 1 [[1], [2]]) ⟨⟨1, [[1]], false, false⟩, [[2]], []⟩ :=
    Step.writeSync _ [1] [[2]] _ rfl rfl (by decide)
  have step2 : Step (⟨⟨1, [[1]], false, false⟩, [[2]], []⟩ : SysState)
      ⟨⟨1, [], false, false⟩, [[2]], [[1]]⟩ :=
    Step.readFrame _ ⟨[1]⟩ _ rfl (by decide)
  have step3 : Step (⟨⟨1, [], false, false⟩, [[2]], [[1]]⟩ : SysState)
      ⟨⟨1, [[2]], false, false⟩, [], [[1]]⟩ :=
    Step.writeAsync _ [2] [] 1 _ rfl rfl (by decide)
  have step4 : Step (⟨⟨1, [[2]], false, false⟩, [], [[1]]⟩ : SysState)
      ⟨⟨1, [[2]], true, false⟩, [], [[1]]⟩ :=
    Step.dropWriterStep _ rfl rfl
  have step5 : Step (⟨⟨1, [[2]], true, false⟩, [], [[1]]⟩ : SysState)
      ⟨⟨1, [], true, false⟩, [], [[1], [2]]⟩ :=
    Step.readFrame _ ⟨[2]⟩ _ rfl (by decide)
  have hreach : Reachable 1 [[1], [2]] ⟨⟨1, [], true, false⟩, [], [[1], [2]]⟩ :=
    Relation.ReflTransGen.head step1 (Relation.ReflTransGen.head step2
      (Relation.ReflTransGen.head step3 (Relation.ReflTransGen.head step4
        (Relation.ReflTransGen.head step5 Relation.ReflTransGen.refl))))
  exact (order_preservation 1 [[1], [2]] _ hreach rfl rfl).1

/-- Claim C3: in every reachable system state the channel holds at most `C`
un-consumed chunks; while exactly `C` chunks are queued and the reader is
live, a blocking write makes no progress for any retry budget and a
suspending write stays pending (both leaving the state untouched); and the
write can only complete after a chunk is dequeued (after which `try_send`
accepts) or the reader is dropped (after which the write completes with
broken pipe). -/
theorem backpressure_bound (C : Nat) (writes : List Chunk) (s : SysState)
    (h : Reachable C writes s) :
    s.chan.queue.length ≤ C ∧
    (∀ b fuel, C ≤ s.chan.queue.length → s.chan.receiverDropped = false →
      writeLoop fuel s.chan b = (none, s.chan) ∧
        pollWrite s.chan b = (Poll.pending, s.chan)) ∧
    (∀ b, C ≤ s.chan.queue.length → 0 < C → s.chan.receiverDropped = false →
      (trySend (pollRecv s.chan).2 b).1 = Except.ok ()) ∧
    (∀ b, writeLoop 1 (dropReader s.chan) b
        = (some (Except.error IoErrorKind.brokenPipe), dropReader s.chan)) := by
  obtain ⟨hc, hl, _⟩ := reachable_invariant h
  refine ⟨hl, ?_, ?_, ?_⟩
  · intro b fuel hfull hlive
    have hcap : s.chan.capacity ≤ s.chan.queue.length := by omega
    exact ⟨writeLoop_full b fuel hlive hcap, pollWrite_full b hlive hcap⟩
  · intro b hfull hpos hlive
    have hne : s.chan.queue ≠ [] := by
      intro hnil
      rw [hnil] at hfull
      simp at hfull
      omega
    obtain ⟨c, rest, hq⟩ := List.exists_cons_of_ne_nil hne
    rw [pollRecv_cons hq]
    have hlen : rest.length < s.chan.capacity := by
      have hlq : s.chan.queue.length = rest.length + 1 := by rw [hq]; simp
      omega
    simp [trySend, hlive, Nat.not_le.mpr hlen]
  · intro b
    exact writeLoop_closed b 1 Nat.one_pos rfl

/-- Claim C3 witness: after one accepted write on a capacity-1 bridge the
queue is full, a further blocking write spins without effect for 5 attempts,
a suspending write is pending, dequeuing one chunk lets `try_send` accept,
and dropping the reader completes the write with broken pipe. -/
theorem backpressure_bound_witness :
    (⟨1, [[1]], false, false⟩ : ChannelState).queue.length ≤ 1 ∧
    writeLoop 5 ⟨1, [[1]], false, false⟩ [9] = (none, ⟨1, [[1]], false, false⟩) ∧
    pollWrite ⟨1, [[1]], false, false⟩ [9] = (Poll.pending, ⟨1, [[1]], false, false⟩) ∧
    (trySend (pollRecv ⟨1, [[1]], false, false⟩).2 [9]).1 = Except.ok () ∧
    writeLoop 1 (dropReader ⟨1, [[1]], false, false⟩) [9]
        = (some (Except.error IoErrorKind.brokenPipe),
            dropReader ⟨1, [[1]], false, false⟩) := by
  have hreach : Reachable 1 [[1], [2]] ⟨⟨1, [[1]], false, false⟩, [[2]], []⟩ :=
    Relation.ReflTransGen.single (Step.writeSync (init 1 [[1], [2]]) [1] [[2]] _ rfl rfl
      (by decide))
  obtain ⟨hb, hblocked, hdeq, hdrop⟩ := backpressure_bound 1 [[1], [2]] _ hreach
  have h2 := hblocked [9] 5 (by decide) rfl
  exact ⟨hb, h2.1, h2.2, hdeq [9] (by decide) (by decide) rfl, hdrop [9]⟩

/-- Repeatedly poll the read adapter's `poll_frame`, collecting the payloads
of up to `n` consecutively yielded data frames and stopping early at the
first result that is not a data frame. -/
def collectFrames : Nat → ChannelState → List Chunk × ChannelState
  | 0, st => ([], st)
  | Nat.succ n, st =>
    match pollFrame st with
    | (Poll.ready (some (Except.ok f)), st') =>
      let next := collectFrames n st'
      (f.data :: next.1, next.2)
    | (_, st') => ([], st')

lemma collectFrames_drains : ∀ (q : List Chunk) (st : ChannelState),
    st.queue = q → st.senderDropped = true →
    collectFrames q.length st = (q, { st with queue := [] }) := by
  intro q
  induction q with
  | nil =>
    intro st hq hs
    simp only [List.length_nil, collectFrames]
    cases st
    simp_all
  | cons c rest ih =>
    intro st hq hs
    have hpf := pollFrame_cons hq
    simp only [List.length_cons, collectFrames, hpf]
    have hrec := ih { st with queue := rest } rfl (by simpa using hs)
    simp [hrec]

/-- Claim C7: once the write adapter has been dropped with chunks still
queued, the reader's `poll_frame` drains exactly those chunks, in order, with
no loss or duplication, and only then yields the end-of-stream signal;
`poll_frame` can never yield an error, and it yields end-of-stream exactly
when the producer has been dropped and the queue is empty — never before. -/
theorem graceful_close (st : ChannelState) (hs : st.senderDropped = true) :
    collectFrames st.queue.length st = (st.queue, { st with queue := [] }) ∧
    pollFrame { st with queue := [] } = (Poll.ready none, { st with queue := [] }) ∧
    (∀ st₁ e st₂, pollFrame st₁ ≠ (Poll.ready (some (Except.error e)), st₂)) ∧
    (∀ st₁ st₂, pollFrame st₁ = (Poll.ready none, st₂) →
      st₁.queue = [] ∧ st₁.senderDropped = true ∧ st₂ = st₁) := by
  refine ⟨collectFrames_drains st.queue st rfl hs, ?_, pollFrame_never_error,
    fun st₁ st₂ h => pollFrame_none_inv h⟩
  exact pollFrame_eos (by simpa using hs) rfl

/-- Claim C7 witness: a dropped writer with `[[1], [2]]` still queued lets
the reader drain exactly those two chunks in order and then observe
end-of-stream. -/
theorem graceful_close_witness :
    collectFrames 2 ⟨2, [[1], [2]], true, false⟩ = ([[1], [2]], ⟨2, [], true, false⟩) ∧
    pollFrame ⟨2, [], true, false⟩ = (Poll.ready none, ⟨2, [], true, false⟩) := by
  have h := graceful_close ⟨2, [[1], [2]], true, false⟩ rfl
  exact ⟨h.1, h.2.1⟩

/-- Claim C1 (counterexample): the spec's factory is parameterized by a
capacity `C`, so at `C = 2` it constructs a channel of capacity 2; the code's
`channel()` takes no capacity argument at all — it is a constant that always
succeeds and always yields capacity 1, so it cannot be called with `C = 0`
(nor any other capacity) and never exercises the underlying zero-capacity
assertion. -/
theorem channel_not_capacity_parameterized :
    Option.map ChannelState.capacity (channelAsSpecified 2) = some 2 ∧
    Option.map ChannelState.capacity channel = some 1 ∧
    channel.isSome = true ∧
    (some 1 : Option Nat) ≠ some 2 := by
  refine ⟨rfl, rfl, rfl, by decide⟩

/-- Claim C1 (amended): the bridge constructor is a single factory operation
returning a connected pair, but it takes no capacity parameter: it always
constructs the underlying channel with the constant buffer 1 and always
succeeds.  The underlying channel constructor does reject a zero buffer
fatally, but the factory never passes 0, so no zero capacity arises and no
coercion ever happens. -/
theorem channel_fixed_capacity_one :
    channel = mpscChannel 1 ∧
    mpscChannel 0 = none ∧
    Option.map ChannelState.capacity channel = some 1 := by
  refine ⟨rfl, rfl, rfl⟩

/-- Claim C4: whenever a write through the blocking entry point
(`std::io::Write::write`) or the suspending entry point (`poll_write`)
completes successfully, the returned count is exactly the length of the input
buffer — chunks are accepted whole or not at all. -/
theorem write_accepts_whole_chunks (fuel : Nat) (st : ChannelState) (buf : Chunk) (n : Nat) :
    ((writeLoop fuel st buf).1 = some (Except.ok n) → n = buf.length) ∧
    ((pollWrite st buf).1 = Poll.ready (Except.ok n) → n = buf.length) :=
  ⟨writeLoop_ok_length fuel st buf n, pollWrite_ok_length⟩

/-- Claim C4 witness: a successful blocking write of a 3-byte buffer reports
3 bytes, and a successful suspending write of an empty buffer reports 0. -/
theorem write_accepts_whole_chunks_witness :
    (3 : Nat) = ([5, 6, 7] : Chunk).length ∧ (0 : Nat) = ([] : Chunk).length :=
  ⟨(write_accepts_whole_chunks 1 ⟨1, [], false, false⟩ [5, 6, 7] 3).1 (by decide),
   (write_accepts_whole_chunks 1 ⟨1, [], false, false⟩ [] 0).2 (by decide)⟩

/-- Claim C5: once the read adapter has been dropped, every subsequent write
attempt on the writer — through either entry point, in any order — returns
the broken-pipe error, and the channel state is left exactly as it was, so
the writer never recovers. -/
theorem broken_pipe_persistent (fuel : Nat) (st : ChannelState)
    (attempts : List (Bool × Chunk)) (hd : st.receiverDropped = true) (hf : 0 < fuel) :
    (writeAttempts fuel st attempts).1
        = attempts.map (fun _ => some (Except.error IoErrorKind.brokenPipe)) ∧
    (writeAttempts fuel st attempts).2 = st := by
  induction attempts with
  | nil => exact ⟨rfl, rfl⟩
  | cons a rest ih =>
    obtain ⟨useAsync, b⟩ := a
    cases useAsync with
    | false =>
      simp only [writeAttempts, writeLoop_closed b fuel hf hd, List.map_cons]
      exact ⟨by simp [ih.1], ih.2⟩
    | true =>
      simp only [writeAttempts, pollWrite_closed b hd, List.map_cons]
      exact ⟨by simp [ih.1], ih.2⟩

/-- Claim C5 witness: after the reader is dropped, a blocking write then a
suspending write on a fresh capacity-1 channel both report broken pipe and
leave the state untouched. -/
theorem broken_pipe_persistent_witness :
    (writeAttempts 1 ⟨1, [], false, true⟩ [(false, [1]), (true, [2])]).1
        = [some (Except.error IoErrorKind.brokenPipe),
           some (Except.error IoErrorKind.brokenPipe)] ∧
    (writeAttempts 1 ⟨1, [], false, true⟩ [(false, [1]), (true, [2])]).2
        = ⟨1, [], false, true⟩ :=
  broken_pipe_persistent 1 ⟨1, [], false, true⟩ [(false, [1]), (true, [2])] rfl
    (by decide)

/-- Claim C6: a write that fails with broken pipe leaves the channel state
exactly unchanged — the failed chunk is not enqueued or buffered — and the
blocking loop does not retry: the very first `try_send` attempt (any positive
fuel) already returns the error, which is surfaced directly to the caller. -/
theorem broken_pipe_no_side_effect (fuel : Nat) (st : ChannelState) (b : Chunk)
    (hd : st.receiverDropped = true) (hf : 0 < fuel) :
    writeLoop fuel st b = (some (Except.error IoErrorKind.brokenPipe), st) ∧
    writeLoop 1 st b = writeLoop fuel st b ∧
    pollWrite st b = (Poll.ready (Except.error IoErrorKind.brokenPipe), st) :=
  ⟨writeLoop_closed b fuel hf hd,
   by rw [writeLoop_closed b 1 Nat.one_pos hd, writeLoop_closed b fuel hf hd],
   pollWrite_closed b hd⟩

/-- Claim C6 witness: with the reader dropped and a chunk queued, a failing
write returns broken pipe and leaves the queued chunk (and everything else)
in place, with no dependence on the retry budget. -/
theorem broken_pipe_no_side_effect_witness :
    writeLoop 7 ⟨2, [[9]], false, true⟩ [1, 2]
        = (some (Except.error IoErrorKind.brokenPipe), ⟨2, [[9]], false, true⟩) ∧
    writeLoop 1 ⟨2, [[9]], false, true⟩ [1, 2] = writeLoop 7 ⟨2, [[9]], false, true⟩ [1, 2] ∧
    pollWrite ⟨2, [[9]], false, true⟩ [1, 2]
        = (Poll.ready (Except.error IoErrorKind.brokenPipe), ⟨2, [[9]], false, true⟩) :=
  broken_pipe_no_side_effect 7 ⟨2, [[9]], false, true⟩ [1, 2] rfl (by decide)

/-- Claim C8: writing a zero-length chunk into a live, empty channel succeeds
(reporting 0 bytes) and enqueues exactly one zero-length chunk; the next
`poll_frame` yields exactly one zero-length data frame — a `some` frame, not
the `none` end-of-stream signal. -/
theorem zero_length_passthrough (st : ChannelState)
    (hr : st.receiverDropped = false) (_hs : st.senderDropped = false)
    (hq : st.queue = []) (hc : 0 < st.capacity) :
    writeLoop 1 st [] = (some (Except.ok 0), { st with queue := [[]] }) ∧
    pollFrame { st with queue := [[]] }
        = (Poll.ready (some (Except.ok { data := [] })), { st with queue := [] }) ∧
    (Poll.ready (some (Except.ok ({ data := [] } : Frame)))
        : Poll (Option (Except BodyIoError Frame))) ≠ Poll.ready none := by
  have h2 : st.queue.length < st.capacity := by rw [hq]; simpa using hc
  refine ⟨?_, ?_, by simp⟩
  · rw [writeLoop_ok [] 1 Nat.one_pos hr h2, hq]
    rfl
  · exact pollFrame_cons rfl

/-- Claim C8 witness: on the freshly constructed capacity-1 channel, writing
the empty chunk yields one zero-length frame, distinct from end-of-stream. -/
theorem zero_length_passthrough_witness :
    writeLoop 1 ⟨1, [], false, false⟩ []
        = (some (Except.ok 0), ⟨1, [[]], false, false⟩) ∧
    pollFrame ⟨1, [[]], false, false⟩
        = (Poll.ready (some (Except.ok { data := [] })), ⟨1, [], false, false⟩) ∧
    (Poll.ready (some (Except.ok ({ data := [] } : Frame)))
        : Poll (Option (Except BodyIoError Frame))) ≠ Poll.ready none :=
  zero_length_passthrough ⟨1, [], false, false⟩ rfl rfl rfl (by decide)

/-- Claim C9: calling the suspending read-into-buffer entry point after the
producer has been dropped and the queue is drained completes immediately and
successfully with the caller's buffer untouched — a zero-length successful
read, not an error. -/
theorem eos_zero_length_read (st : ChannelState) (buf : ReadBuf)
    (hs : st.senderDropped = true) (hq : st.queue = []) :
    pollRead st buf = some (Poll.ready (Except.ok ()), buf, st) := by
  simp [pollRead, pollRecv_eos hs hq]

/-- Claim C9 witness: reading from a drained, producer-dropped channel into
an empty 4-byte buffer succeeds with the buffer still empty. -/
theorem eos_zero_length_read_witness :
    pollRead ⟨1, [], true, false⟩ ⟨4, []⟩
        = some (Poll.ready (Except.ok ()), (⟨4, []⟩ : ReadBuf), (⟨1, [], true, false⟩ : ChannelState)) :=
  eos_zero_length_read ⟨1, [], true, false⟩ ⟨4, []⟩ rfl rfl

/-- Claim C10: the suspending read never delivers a truncated chunk: if the
next queued chunk is longer than the buffer's remaining capacity, the
`put_slice` capacity assertion fires (modelled as `none`, a panic) instead of
a partial copy; if the remaining capacity suffices, the whole chunk — and
nothing less — is appended to the buffer. -/
theorem read_copies_whole_chunk (st : ChannelState) (buf : ReadBuf) (c : Chunk)
    (rest : List Chunk) (hq : st.queue = c :: rest) :
    (ReadBuf.remaining buf < c.length → pollRead st buf = none) ∧
    (c.length ≤ ReadBuf.remaining buf →
      pollRead st buf
        = some (Poll.ready (Except.ok ()), { buf with filled := buf.filled ++ c },
            { st with queue := rest })) := by
  constructor
  · intro hover
    simp [pollRead, pollRecv_cons hq, ReadBuf.putSlice, Nat.not_le.mpr hover]
  · intro hfits
    simp [pollRead, pollRecv_cons hq, ReadBuf.putSlice, hfits]

/-- Claim C10 witness: a 2-byte chunk into a buffer with 1 byte remaining
panics (no partial delivery); the same chunk into a buffer with 4 bytes
remaining is copied whole. -/
theorem read_copies_whole_chunk_witness :
    pollRead ⟨1, [[7, 8]], false, false⟩ ⟨1, []⟩ = none ∧
    pollRead ⟨1, [[7, 8]], false, false⟩ ⟨4, []⟩
        = some (Poll.ready (Except.ok ()), (⟨4, [7, 8]⟩ : ReadBuf),
            (⟨1, [], false, false⟩ : ChannelState)) :=
  ⟨(read_copies_whole_chunk ⟨1, [[7, 8]], false, false⟩ ⟨1, []⟩ [7, 8] [] rfl).1 (by decide),
   (read_copies_whole_chunk ⟨1, [[7, 8]], false, false⟩ ⟨4, []⟩ [7, 8] [] rfl).2 (by decide)⟩

end HttpBodyChannel
